import Mathlib

/-!
# web_server.c: a shallow embedding and its verified properties

The server keeps seven global counters, parses one request line per
connection with `sscanf`, and dispatches to one of five responses.

Conventions of the embedding.

* A C string is a `List Char` (its bytes up to, not including, the NUL).
  File contents and the bytes sent on a socket are `List Char` as well.
* `unsigned long` and `size_t` are 64 bits wide: every update of such a
  variable is written with an explicit `% ULONG_MOD`.  `int` is 32 bits wide
  and wraps in two's complement (`wrap_int`).
* The mutex-protected globals are the record `Globals`; every function that
  touches them takes the record and returns the new one.
* Everything the environment decides is an input: the result of `recv`, the
  stale contents of the stack arrays that the code never initialises, the
  answers of `fopen` and `opendir`/`readdir`, and the value of `time(NULL)`.
* `send` is taken to transmit all the bytes it is given; the bytes written to
  the connection are returned next to the new globals.
* `%s` conversions are modelled without a length limit.  The arrays they fill
  (`method[16]`, `path[256]`, `filename[256]`) bound the executions the
  embedding speaks about: a longer token overruns the array in C.
-/

namespace WebServer

/-! ## Constants and the global state -/

/-- The macro BUFFER_SIZE. -/
def BUFFER_SIZE : Nat := 1024

/-- The macro DOC_ROOT. -/
def DOC_ROOT : List Char := "./www".toList

/-- Number of values of an `unsigned long` (and of a `size_t`). -/
def ULONG_MOD : Nat := 2 ^ 64

/-- Two's complement wrap of a mathematical integer into the range of `int`. -/
def wrap_int (x : Int) : Int := (x + 2 ^ 31) % 2 ^ 32 - 2 ^ 31

/-- Conversion of a signed value to `size_t` / `unsigned long`. -/
def to_ulong (x : Int) : Nat := (x % (ULONG_MOD : Int)).toNat

/-- The global variables of lines 19-24. -/
structure Globals where
  active_connections : Int
  total_requests : Nat
  total_bytes_received : Nat
  total_bytes_transmitted : Nat
  http_2xx : Nat
  http_4xx : Nat
  http_5xx : Nat
  server_start_time : Int

/-- The three counters whose address is passed to increment_stat. -/
inductive StatRef where
  | http_2xx
  | http_4xx
  | http_5xx
  deriving DecidableEq, Repr

/-- Lines 41-45: `(*stat)++` under the mutex. -/
def increment_stat (stat : StatRef) (g : Globals) : Globals :=
  match stat with
  | .http_2xx => { g with http_2xx := (g.http_2xx + 1) % ULONG_MOD }
  | .http_4xx => { g with http_4xx := (g.http_4xx + 1) % ULONG_MOD }
  | .http_5xx => { g with http_5xx := (g.http_5xx + 1) % ULONG_MOD }

/-- Lines 48-53: both byte counters are updated in one critical section. -/
def update_byte_stats (received transmitted : Nat) (g : Globals) : Globals :=
  { g with
    total_bytes_received := (g.total_bytes_received + received) % ULONG_MOD
    total_bytes_transmitted := (g.total_bytes_transmitted + transmitted) % ULONG_MOD }

/-! ## The environment -/

/-- One entry returned by readdir: its name and whether `d_type == DT_REG`. -/
structure Dirent where
  d_name : List Char
  is_reg : Bool

/-- The filesystem as the server sees it.  `fopen p` is the content of the file
opened for reading at path `p`, or `none` when fopen returns NULL; `opendir p`
is the sequence of entries readdir yields, or `none` when opendir returns NULL. -/
structure FS where
  fopen : List Char → Option (List Char)
  opendir : List Char → Option (List Dirent)

/-- Result of the single recv call of line 186. -/
inductive Recv where
  | failed
  | got (bytes : List Char)

/-- Return value of recv: -1 on failure, else the number of bytes stored. -/
def Recv.ret : Recv → Int
  | .failed => -1
  | .got bytes => (bytes.length : Int)

/-- Bytes recv stored at the start of `buffer`. -/
def Recv.stored : Recv → List Char
  | .failed => []
  | .got bytes => bytes

/-- Everything one run of handle_client takes from its environment. -/
structure Conn where
  /-- Outcome of recv. -/
  recv : Recv
  /-- Memory that follows the stored bytes (`buffer` is not initialised). -/
  stale : List Char
  /-- Prior content of the array `method`, read as a C string. -/
  method0 : List Char
  /-- Prior content of the array `path`, read as a C string. -/
  path0 : List Char
  /-- Prior content of the array `filename`, read as a C string. -/
  filename0 : List Char
  /-- Filesystem answers during this run. -/
  fs : FS
  /-- Value of `time(NULL)` in serve_stats. -/
  now : Int

/-! ## C library functions -/

/-- The C string that starts at a memory region: the bytes before the first NUL. -/
def cstr (mem : List Char) : List Char := mem.takeWhile (fun ch => ch != Char.ofNat 0)

/-- The predicate isspace of the C locale. -/
def isspace (ch : Char) : Bool :=
  ch == ' ' || ch == '\t' || ch == '\n' || ch == Char.ofNat 11 || ch == Char.ofNat 12 || ch == '\r'

/-- One `%s` conversion of sscanf: skip white space, then take the longest run
of characters that are not white space.  `none` when the input ends before a
character is found (the conversion stores nothing). -/
def scan_s (input : List Char) : Option (List Char × List Char) :=
  let rest := input.dropWhile isspace
  let tok := rest.takeWhile (fun ch => !isspace ch)
  if tok = [] then none else some (tok, rest.dropWhile (fun ch => !isspace ch))

/-- Line 190: `sscanf(buffer, "%s %s", method, path)`.  An array whose
conversion did not happen keeps its prior content. -/
def sscanf_request (buffer method0 path0 : List Char) : List Char × List Char :=
  match scan_s buffer with
  | none => (method0, path0)
  | some (m, rest) =>
    match scan_s rest with
    | none => (m, path0)
    | some (p, _) => (m, p)

/-- Line 202: `sscanf(path, "/sync/%s", filename)`.  The six literal characters
must match, then one `%s` conversion; `filename` keeps its prior content when
the conversion does not happen. -/
def sscanf_sync (path filename0 : List Char) : List Char :=
  if path.take 6 = "/sync/".toList then
    match scan_s (path.drop 6) with
    | none => filename0
    | some (f, _) => f
  else filename0

/-- Write a formatted string into an array of `size` bytes with snprintf: at most
`size - 1` characters are kept. -/
def snprintf (size : Nat) (formatted : List Char) : List Char := formatted.take (size - 1)

/-- Conversion `%lu`. -/
def fmt_lu (n : Nat) : List Char := (Nat.repr n).toList

/-- Conversion `%02lu`: at least two digits, padded with a zero. -/
def fmt_02lu (n : Nat) : List Char :=
  if (fmt_lu n).length < 2 then '0' :: fmt_lu n else fmt_lu n

/-- Conversion `%d`. -/
def fmt_d (i : Int) : List Char := (Int.repr i).toList

/-! ## Handlers -/

/-- The 404 response, written identically at lines 119-122, 151-154 and 208-211. -/
def not_found_response : List Char :=
  "HTTP/1.1 404 Not Found\r\nContent-Type: text/html\r\n\r\n<h1>404 Not Found</h1>".toList

/-- Lines 56-81.  The globals are read under the mutex and none is written. -/
def serve_stats (now : Int) (g : Globals) : Globals × List Char :=
  let uptime := to_ulong (now - g.server_start_time)
  let stats := snprintf (BUFFER_SIZE * 4)
    ("HTTP/1.1 200 OK\r\nContent-Type: text/plain\r\n\r\n".toList
      ++ "Active connections: ".toList ++ fmt_d g.active_connections ++ "\n".toList
      ++ "Total requests served: ".toList ++ fmt_lu g.total_requests ++ "\n".toList
      ++ "Uptime: ".toList ++ fmt_lu (uptime / 86400) ++ " days, ".toList
      ++ fmt_02lu ((uptime % 86400) / 3600) ++ ":".toList
      ++ fmt_02lu ((uptime % 3600) / 60) ++ ":".toList
      ++ fmt_02lu (uptime % 60) ++ "\n".toList
      ++ "Total bytes received: ".toList ++ fmt_lu g.total_bytes_received ++ "\n".toList
      ++ "Total bytes transmitted: ".toList ++ fmt_lu g.total_bytes_transmitted ++ "\n".toList
      ++ "HTTP 2xx responses: ".toList ++ fmt_lu g.http_2xx ++ "\n".toList
      ++ "HTTP 4xx responses: ".toList ++ fmt_lu g.http_4xx ++ "\n".toList
      ++ "HTTP 5xx responses: ".toList ++ fmt_lu g.http_5xx ++ "\n".toList)
  (g, stats)

/-- The loop of lines 100-105: one line per entry whose type is DT_REG. -/
def list_loop (entries : List Dirent) (sent : List Char) : List Char :=
  match entries with
  | [] => sent
  | entry :: more =>
    if entry.is_reg then
      list_loop more (sent ++ snprintf BUFFER_SIZE (entry.d_name ++ "\n".toList))
    else list_loop more sent

/-- Lines 84-109. -/
def list_files (fs : FS) (g : Globals) : Globals × List Char :=
  match fs.opendir DOC_ROOT with
  | none => (increment_stat .http_5xx g, "HTTP/1.1 500 Internal Server Error\r\n\r\n".toList)
  | some entries =>
    (increment_stat .http_2xx g,
      list_loop entries "HTTP/1.1 200 OK\r\nContent-Type: text/plain\r\n\r\n".toList)

/-- The loop of lines 134-137 (and 166-169): fread fills at most BUFFER_SIZE
bytes, the loop ends at the first empty read; each chunk is sent and its
length added to total_bytes_transmitted. -/
def stream_file (file : List Char) (g : Globals) (sent : List Char) : Globals × List Char :=
  if _nonempty : 0 < (file.take BUFFER_SIZE).length then
    stream_file (file.drop BUFFER_SIZE)
      (update_byte_stats 0 (file.take BUFFER_SIZE).length g) (sent ++ file.take BUFFER_SIZE)
  else (g, sent)
termination_by file.length
decreasing_by
  simp only [List.length_take, BUFFER_SIZE, List.length_drop] at _nonempty ⊢
  omega

/-- Lines 112-141. -/
def send_file (fs : FS) (filename : List Char) (g : Globals) : Globals × List Char :=
  match fs.fopen (snprintf BUFFER_SIZE (DOC_ROOT ++ "/".toList ++ filename)) with
  | none => (increment_stat .http_4xx g, not_found_response)
  | some file =>
    stream_file file (increment_stat .http_2xx g)
      "HTTP/1.1 200 OK\r\nContent-Type: application/octet-stream\r\n\r\n".toList

/-- Lines 144-173. -/
def serve_file (fs : FS) (path : List Char) (g : Globals) : Globals × List Char :=
  match fs.fopen (snprintf BUFFER_SIZE (DOC_ROOT ++ path)) with
  | none => (increment_stat .http_4xx g, not_found_response)
  | some file =>
    stream_file file (increment_stat .http_2xx g)
      "HTTP/1.1 200 OK\r\nContent-Type: text/html\r\n\r\n".toList

/-! ## The connection worker -/

/-- Which branch of lines 196-214 runs, with the argument it passes on. -/
inductive RouteDecision where
  | Diagnostics
  | ListDirectory
  | DownloadNamed (filename : List Char)
  | ServeStatic (path : List Char)
  | Rejected
  deriving DecidableEq, Repr

/-- Lines 192-194: `/` becomes `/index.html`. -/
def normalize (path : List Char) : List Char :=
  if path = "/".toList then "/index.html".toList else path

/-- The if-chain of lines 196-214 as a decision.  `filename0` is what the array
`filename` holds before the sscanf of line 202. -/
def route (method path filename0 : List Char) : RouteDecision :=
  if path = "/stats".toList then .Diagnostics
  else if path = "/sync".toList then .ListDirectory
  else if path.take 6 = "/sync/".toList then .DownloadNamed (sscanf_sync path filename0)
  else if method = "GET".toList then .ServeStatic path
  else .Rejected

/-- The body of the branch selected at lines 196-214. -/
def perform (c : Conn) (r : RouteDecision) (g : Globals) : Globals × List Char :=
  match r with
  | .Diagnostics => serve_stats c.now g
  | .ListDirectory => list_files c.fs g
  | .DownloadNamed filename => send_file c.fs filename g
  | .ServeStatic path => serve_file c.fs path g
  | .Rejected => (increment_stat .http_4xx g, not_found_response)

/-- Lines 196-214 for an already normalised path. -/
def dispatch (c : Conn) (method path : List Char) (g : Globals) : Globals × List Char :=
  perform c (route method path c.filename0) g

/-- Lines 180-183. -/
def hc_enter (g : Globals) : Globals :=
  { g with
    active_connections := wrap_int (g.active_connections + 1)
    total_requests := (g.total_requests + 1) % ULONG_MOD }

/-- Lines 189-190: method and path as left by sscanf. -/
def scan_request (c : Conn) : List Char × List Char :=
  sscanf_request (cstr (c.recv.stored ++ c.stale)) c.method0 c.path0

/-- Lines 185-214: receive, count the bytes, parse, normalise, dispatch. -/
def hc_serve (c : Conn) (g : Globals) : Globals × List Char :=
  let bytes_received := to_ulong c.recv.ret
  let g1 := update_byte_stats bytes_received 0 g
  let req := scan_request c
  dispatch c req.1 (normalize req.2) g1

/-- Lines 216-218. -/
def hc_leave (g : Globals) : Globals :=
  { g with active_connections := wrap_int (g.active_connections - 1) }

/-- Lines 176-221. -/
def handle_client (c : Conn) (g : Globals) : Globals × List Char :=
  let served := hc_serve c (hc_enter g)
  (hc_leave served.1, served.2)

/-! ## Runs of several workers -/

/-- N connections served one after the other. -/
def serve_all (conns : List Conn) (g : Globals) : Globals :=
  conns.foldl (fun acc c => (handle_client c acc).1) g

/-- Where a worker stands: before line 180, after line 183, after line 214,
after line 218. -/
inductive Phase where
  | idle
  | started
  | handled
  | ended
  deriving DecidableEq, Repr

/-- A worker thread: the connection it owns and where it stands. -/
structure Worker where
  conn : Conn
  phase : Phase

/-- One step of a worker on the shared globals: start (lines 180-183), handle
(lines 185-214), end (lines 216-218).  A worker that has ended does nothing. -/
def Worker.step (w : Worker) (g : Globals) : Worker × Globals :=
  match w.phase with
  | .idle => ({ w with phase := .started }, hc_enter g)
  | .started => ({ w with phase := .handled }, (hc_serve w.conn g).1)
  | .handled => ({ w with phase := .ended }, hc_leave g)
  | .ended => (w, g)

/-- The shared globals and the workers spawned by the accept loop. -/
structure System where
  globals : Globals
  workers : List Worker

/-- All workers spawned, none started. -/
def System.init (g : Globals) (conns : List Conn) : System :=
  { globals := g, workers := conns.map (fun c => { conn := c, phase := .idle }) }

/-- The scheduler lets worker `i` take its next step; an index that names no
worker changes nothing. -/
def System.step (sys : System) (i : Nat) : System :=
  match sys.workers[i]? with
  | none => sys
  | some w =>
    { globals := (w.step sys.globals).2
      workers := sys.workers.set i (w.step sys.globals).1 }

/-- An interleaving is the list of worker indices in the order they step. -/
def System.run (sys : System) (schedule : List Nat) : System :=
  schedule.foldl System.step sys

/-- Started and not yet ended. -/
def Worker.in_flight (w : Worker) : Bool :=
  decide (w.phase = .started) || decide (w.phase = .handled)

/-- Number of workers that have started and not yet ended. -/
def in_flight (ws : List Worker) : Nat := ws.countP Worker.in_flight

/-- Every worker has ended. -/
def all_ended (ws : List Worker) : Bool := ws.all (fun w => decide (w.phase = .ended))

/-! ## Vocabulary of the specification -/

/-- The router of the specification, in its words: first match wins. -/
def route_spec (method path : List Char) : RouteDecision :=
  if path = "/stats".toList then .Diagnostics
  else if path = "/sync".toList then .ListDirectory
  else if "/sync/".toList.isPrefixOf path then .DownloadNamed (path.drop 6)
  else if method = "GET".toList then .ServeStatic path
  else .Rejected

/-- A token as `%s` reads it: not empty, no white space. -/
def is_token (s : List Char) : Bool := !s.isEmpty && s.all (fun ch => !isspace ch)

/-- Number of outcomes reported so far: the three response-class counters added up. -/
def response_total (g : Globals) : Nat := g.http_2xx + g.http_4xx + g.http_5xx

/-- A header value holds neither a carriage return nor a line feed. -/
def one_line (s : List Char) : Prop := ∀ ch ∈ s, ch ≠ '\r' ∧ ch ≠ '\n'

/-- The wire form of the specification: status line, exactly one Content-Type
header line, blank line, body. -/
def wire_form (out : List Char) : Prop :=
  ∃ status ∈ ["200 OK".toList, "404 Not Found".toList, "500 Internal Server Error".toList],
    ∃ ctype body : List Char, one_line ctype ∧
      out = "HTTP/1.1 ".toList ++ status ++ "\r\n".toList
            ++ "Content-Type: ".toList ++ ctype ++ "\r\n".toList ++ "\r\n".toList ++ body

/-- The wire form the code produces: a 200 or a 404 carries exactly one
Content-Type header line; the 500 is the bare status line and the blank line. -/
def wire_form_code (out : List Char) : Prop :=
  (∃ status ∈ ["200 OK".toList, "404 Not Found".toList],
    ∃ ctype body : List Char, one_line ctype ∧
      out = "HTTP/1.1 ".toList ++ status ++ "\r\n".toList
            ++ "Content-Type: ".toList ++ ctype ++ "\r\n".toList ++ "\r\n".toList ++ body)
  ∨ out = "HTTP/1.1 500 Internal Server Error".toList ++ "\r\n".toList ++ "\r\n".toList

/-! ## Concrete inputs -/

/-- All counters zero, as at process start. -/
def globals_zero : Globals :=
  { active_connections := 0, total_requests := 0, total_bytes_received := 0,
    total_bytes_transmitted := 0, http_2xx := 0, http_4xx := 0, http_5xx := 0,
    server_start_time := 0 }

/-- Enumeration of a directory with two regular files and one subdirectory. -/
def demo_entries : List Dirent :=
  [⟨"a.txt".toList, true⟩, ⟨"assets".toList, false⟩, ⟨"b.txt".toList, true⟩]

/-- A document root where index.html, a.txt and b.txt can be opened and whose
enumeration is demo_entries. -/
def fs_demo : FS :=
  { fopen := fun p =>
      if p = "./www/index.html".toList then some "<p>hi</p>".toList
      else if p = "./www/a.txt".toList then some "alpha".toList
      else if p = "./www/b.txt".toList then some []
      else none
    opendir := fun p =>
      if p = "./www".toList then
        some demo_entries
      else none }

/-- A filesystem on which every fopen and opendir fails. -/
def fs_unreadable : FS := { fopen := fun _ => none, opendir := fun _ => none }

/-- A connection that receives the given request text, followed in memory by a NUL. -/
def conn_of (fs : FS) (request : String) : Conn :=
  { recv := .got request.toList, stale := [Char.ofNat 0], method0 := [], path0 := [],
    filename0 := "x".toList, fs := fs, now := 0 }

/-- A connection whose recv fails; the buffer holds only a NUL. -/
def conn_recv_failed : Conn :=
  { recv := .failed, stale := [Char.ofNat 0], method0 := [], path0 := [],
    filename0 := [], fs := fs_demo, now := 0 }

/-- A connection whose request line is `GET /`. -/
def conn_root : Conn := conn_of fs_demo "GET / HTTP/1.1\r\n\r\n"

/-- A connection whose request line is `GET /index.html`. -/
def conn_index : Conn := conn_of fs_demo "GET /index.html HTTP/1.1\r\n\r\n"

/-- A connection whose request line is `GET /sync/`, on a stack where the array
filename still holds `a.txt`. -/
def conn_sync_slash : Conn :=
  { recv := .got "GET /sync/ HTTP/1.1\r\n\r\n".toList, stale := [Char.ofNat 0], method0 := [],
    path0 := [], filename0 := "a.txt".toList, fs := fs_demo, now := 0 }

/-- Three connections: a static file, a failed recv, a method that is not GET. -/
def demo_conns : List Conn :=
  [conn_of fs_demo "GET / HTTP/1.1\r\n\r\n", conn_recv_failed,
    conn_of fs_unreadable "BREW /pot HTTP/1.1\r\n\r\n"]

/-- An interleaving of the three workers of demo_conns that lets each one end. -/
def demo_schedule : List Nat := [0, 1, 1, 2, 0, 2, 0, 1, 2]

/-! ## Auxiliary facts -/

theorem lit_sync_slash : "/sync/".toList = ['/', 's', 'y', 'n', 'c', '/'] := rfl

/-- The chunked loop sends the whole file and adds its length to
total_bytes_transmitted, one chunk at a time. -/
theorem stream_file_eq (file : List Char) (g : Globals) (sent : List Char) :
    stream_file file g sent =
      (if file = [] then g else
        { g with
          total_bytes_received := g.total_bytes_received % ULONG_MOD
          total_bytes_transmitted := (g.total_bytes_transmitted + file.length) % ULONG_MOD },
       sent ++ file) := by
  induction file, g, sent using stream_file.induct with
  | case1 file g sent h ih =>
    rw [stream_file, dif_pos h, ih]
    have hne : file ≠ [] := by
      intro h0; subst h0; simp at h
    have hlen : (List.take BUFFER_SIZE file).length + (List.drop BUFFER_SIZE file).length
        = file.length := by
      rw [← List.length_append, List.take_append_drop]
    simp only [hne, if_false, List.append_assoc, List.take_append_drop, update_byte_stats]
    by_cases hd : List.drop BUFFER_SIZE file = []
    · simp only [hd, if_true]
      rw [hd] at hlen
      simp only [List.length_nil, Nat.add_zero] at hlen
      rw [hlen, Nat.add_zero]
    · simp only [hd, if_false]
      congr 1
      rw [← hlen]
      simp only [Nat.add_zero, Nat.mod_mod, Nat.add_mod_mod, Nat.mod_add_mod, Nat.add_assoc]
  | case2 file g sent h =>
    rw [stream_file, dif_neg h]
    have : file = [] := by
      cases file with
      | nil => rfl
      | cons a t => simp [BUFFER_SIZE] at h
    simp [this]

/-- No branch of lines 196-214 writes active_connections, total_requests or
server_start_time. -/
theorem perform_frame (c : Conn) (r : RouteDecision) (g : Globals) :
    (perform c r g).1.active_connections = g.active_connections ∧
    (perform c r g).1.total_requests = g.total_requests ∧
    (perform c r g).1.server_start_time = g.server_start_time := by
  cases r with
  | Diagnostics => exact ⟨rfl, rfl, rfl⟩
  | ListDirectory =>
    simp only [perform, list_files]
    split <;> simp [increment_stat]
  | DownloadNamed filename =>
    simp only [perform, send_file, stream_file_eq]
    split
    · simp [increment_stat]
    · split <;> simp [increment_stat]
  | ServeStatic path =>
    simp only [perform, serve_file, stream_file_eq]
    split
    · simp [increment_stat]
    · split <;> simp [increment_stat]
  | Rejected => simp [perform, increment_stat]

theorem hc_serve_frame (c : Conn) (g : Globals) :
    (hc_serve c g).1.active_connections = g.active_connections ∧
    (hc_serve c g).1.total_requests = g.total_requests := by
  have h := perform_frame c (route (scan_request c).1 (normalize (scan_request c).2) c.filename0)
    (update_byte_stats (to_ulong c.recv.ret) 0 g)
  simp only [hc_serve, dispatch]
  exact ⟨h.1, h.2.1⟩

theorem handle_client_total_requests (c : Conn) (g : Globals) :
    (handle_client c g).1.total_requests = (g.total_requests + 1) % ULONG_MOD := by
  simp only [handle_client, hc_leave]
  rw [(hc_serve_frame c (hc_enter g)).2]
  rfl

/-- C3: after N connections served one after the other, whatever each one
receives and whatever the filesystem answers, total_requests is its value
before plus N (N below the wrap of the 64-bit counter). -/
theorem total_requests_after_serve_all (conns : List Conn) (g : Globals)
    (h : g.total_requests + conns.length < ULONG_MOD) :
    (serve_all conns g).total_requests = g.total_requests + conns.length := by
  induction conns generalizing g with
  | nil => rfl
  | cons c cs ih =>
    simp only [List.length_cons] at h
    have h1 : (handle_client c g).1.total_requests = g.total_requests + 1 := by
      rw [handle_client_total_requests]
      exact Nat.mod_eq_of_lt (by omega)
    have h2 := ih (handle_client c g).1 (by rw [h1]; omega)
    simp only [serve_all, List.foldl_cons, List.length_cons] at h2 ⊢
    rw [h2, h1]
    omega

theorem total_requests_after_serve_all_witness :
    globals_zero.total_requests + demo_conns.length < ULONG_MOD ∧
    (serve_all demo_conns globals_zero).total_requests
      = globals_zero.total_requests + demo_conns.length :=
  ⟨by decide, total_requests_after_serve_all demo_conns globals_zero (by decide)⟩

/-- A token is read back whole by one `%s` conversion. -/
theorem scan_s_token (s : List Char) (h : is_token s = true) : scan_s s = some (s, []) := by
  cases s with
  | nil => simp [is_token] at h
  | cons a t =>
    simp only [is_token, List.isEmpty_cons, Bool.not_false, Bool.true_and, List.all_eq_true,
      Bool.not_eq_true'] at h
    have ha : isspace a = false := h a (List.mem_cons_self a t)
    have htake : List.takeWhile (fun ch => !isspace ch) (a :: t) = a :: t := by
      rw [List.takeWhile_eq_self_iff]
      intro x hx
      simp [h x hx]
    have hdrop : List.dropWhile (fun ch => !isspace ch) (a :: t) = [] := by
      rw [List.dropWhile_eq_nil_iff]
      intro x hx
      simp [h x hx]
    have hskip : List.dropWhile isspace (a :: t) = a :: t := by
      simp [List.dropWhile_cons, ha]
    simp only [scan_s, hskip, htake, hdrop]
    simp

/-- A path made of `/sync/` and a token reaches send_file with that token. -/
theorem route_sync_token (method name filename0 : List Char) (h : is_token name = true) :
    route method ("/sync/".toList ++ name) filename0 = .DownloadNamed name := by
  have htake : List.take 6 ("/sync/".toList ++ name) = "/sync/".toList := by
    simp [lit_sync_slash]
  have hdrop : List.drop 6 ("/sync/".toList ++ name) = name := by
    simp [lit_sync_slash]
  have h1 : "/sync/".toList ++ name ≠ "/stats".toList := by
    simp [lit_sync_slash]
  have h2 : "/sync/".toList ++ name ≠ "/sync".toList := by
    simp [lit_sync_slash]
  simp only [route, h1, h2, if_false, htake, if_true, sscanf_sync, hdrop, scan_s_token name h]

/-- Without truncation snprintf keeps the whole string. -/
theorem snprintf_full_path (name : List Char) (h : name.length < 250) :
    snprintf BUFFER_SIZE (DOC_ROOT ++ "/".toList ++ name) = DOC_ROOT ++ "/".toList ++ name := by
  unfold snprintf
  apply List.take_of_length_le
  simp [DOC_ROOT, BUFFER_SIZE]
  omega

/-- C5: round trip of send_file.  For a file of any content stored as
DOC_ROOT/name, the bytes written for the path /sync/name are the
application/octet-stream header followed by exactly the content;
total_bytes_transmitted grows by the length of the content and
total_bytes_received is unchanged. -/
theorem send_file_round_trip (c : Conn) (method name content : List Char) (g : Globals)
    (hname : is_token name = true) (hlen : name.length < 250)
    (hfile : c.fs.fopen (DOC_ROOT ++ "/".toList ++ name) = some content)
    (hrecv : g.total_bytes_received < ULONG_MOD)
    (hsent : g.total_bytes_transmitted + content.length < ULONG_MOD) :
    (dispatch c method ("/sync/".toList ++ name) g).2
      = "HTTP/1.1 200 OK\r\nContent-Type: application/octet-stream\r\n\r\n".toList ++ content ∧
    (dispatch c method ("/sync/".toList ++ name) g).1.total_bytes_transmitted
      = g.total_bytes_transmitted + content.length ∧
    (dispatch c method ("/sync/".toList ++ name) g).1.total_bytes_received
      = g.total_bytes_received := by
  simp only [dispatch, route_sync_token method name c.filename0 hname, perform, send_file,
    snprintf_full_path name hlen, hfile, stream_file_eq]
  refine ⟨trivial, ?_, ?_⟩
  · split
    · next h0 => simp [h0, increment_stat]
    · simp only [increment_stat]
      exact Nat.mod_eq_of_lt hsent
  · split
    · simp [increment_stat]
    · simp only [increment_stat]
      exact Nat.mod_eq_of_lt hrecv

theorem send_file_round_trip_witness :
    is_token "a.txt".toList = true ∧ "a.txt".toList.length < 250 ∧
    (conn_of fs_demo "").fs.fopen (DOC_ROOT ++ "/".toList ++ "a.txt".toList)
      = some "alpha".toList ∧
    globals_zero.total_bytes_received < ULONG_MOD ∧
    globals_zero.total_bytes_transmitted + "alpha".toList.length < ULONG_MOD ∧
    ((dispatch (conn_of fs_demo "") "GET".toList ("/sync/".toList ++ "a.txt".toList)
        globals_zero).2
      = "HTTP/1.1 200 OK\r\nContent-Type: application/octet-stream\r\n\r\n".toList
          ++ "alpha".toList ∧
    (dispatch (conn_of fs_demo "") "GET".toList ("/sync/".toList ++ "a.txt".toList)
        globals_zero).1.total_bytes_transmitted
      = globals_zero.total_bytes_transmitted + "alpha".toList.length ∧
    (dispatch (conn_of fs_demo "") "GET".toList ("/sync/".toList ++ "a.txt".toList)
        globals_zero).1.total_bytes_received
      = globals_zero.total_bytes_received) :=
  ⟨by decide, by decide, by decide, by decide, by decide,
    send_file_round_trip (conn_of fs_demo "") "GET".toList "a.txt".toList "alpha".toList
      globals_zero (by decide) (by decide) (by decide) (by decide) (by decide)⟩

/-- C7: when opening DOC_ROOT/filename fails, the path /sync/filename is
answered with exactly the 404 response; http_4xx grows by one and http_2xx,
http_5xx and total_bytes_transmitted keep their values. -/
theorem send_file_missing (c : Conn) (method name : List Char) (g : Globals)
    (hname : is_token name = true) (hlen : name.length < 250)
    (hfile : c.fs.fopen (DOC_ROOT ++ "/".toList ++ name) = none)
    (h4 : g.http_4xx + 1 < ULONG_MOD) :
    (dispatch c method ("/sync/".toList ++ name) g).2
      = "HTTP/1.1 404 Not Found\r\nContent-Type: text/html\r\n\r\n<h1>404 Not Found</h1>".toList ∧
    (dispatch c method ("/sync/".toList ++ name) g).1.http_4xx = g.http_4xx + 1 ∧
    (dispatch c method ("/sync/".toList ++ name) g).1.http_2xx = g.http_2xx ∧
    (dispatch c method ("/sync/".toList ++ name) g).1.http_5xx = g.http_5xx ∧
    (dispatch c method ("/sync/".toList ++ name) g).1.total_bytes_transmitted
      = g.total_bytes_transmitted := by
  simp only [dispatch, route_sync_token method name c.filename0 hname, perform, send_file,
    snprintf_full_path name hlen, hfile, increment_stat]
  exact ⟨rfl, Nat.mod_eq_of_lt h4, trivial, trivial, trivial⟩

theorem send_file_missing_witness :
    is_token "missing.bin".toList = true ∧ "missing.bin".toList.length < 250 ∧
    (conn_of fs_demo "").fs.fopen (DOC_ROOT ++ "/".toList ++ "missing.bin".toList) = none ∧
    globals_zero.http_4xx + 1 < ULONG_MOD ∧
    ((dispatch (conn_of fs_demo "") "GET".toList ("/sync/".toList ++ "missing.bin".toList)
        globals_zero).2
      = "HTTP/1.1 404 Not Found\r\nContent-Type: text/html\r\n\r\n<h1>404 Not Found</h1>".toList ∧
    (dispatch (conn_of fs_demo "") "GET".toList ("/sync/".toList ++ "missing.bin".toList)
        globals_zero).1.http_4xx = globals_zero.http_4xx + 1 ∧
    (dispatch (conn_of fs_demo "") "GET".toList ("/sync/".toList ++ "missing.bin".toList)
        globals_zero).1.http_2xx = globals_zero.http_2xx ∧
    (dispatch (conn_of fs_demo "") "GET".toList ("/sync/".toList ++ "missing.bin".toList)
        globals_zero).1.http_5xx = globals_zero.http_5xx ∧
    (dispatch (conn_of fs_demo "") "GET".toList ("/sync/".toList ++ "missing.bin".toList)
        globals_zero).1.total_bytes_transmitted = globals_zero.total_bytes_transmitted) :=
  ⟨by decide, by decide, by decide, by decide,
    send_file_missing (conn_of fs_demo "") "GET".toList "missing.bin".toList globals_zero
      (by decide) (by decide) (by decide) (by decide)⟩

/-! ## Interleaved workers -/

theorem wrap_int_of_range (x : Int) (hlo : 0 ≤ x) (hhi : x < 2 ^ 31) : wrap_int x = x := by
  unfold wrap_int
  omega

/-- One worker stepped three times runs handle_client. -/
theorem single_worker_is_handle_client (c : Conn) (g : Globals) :
    ((System.init g [c]).run [0, 0, 0]).globals = (handle_client c g).1 := rfl

/-- What one scheduler step keeps true: no worker is lost and
active_connections is the start value plus the workers in flight. -/
theorem step_invariant (a : Int) (n : Nat) (sys : System) (i : Nat)
    (h0 : 0 ≤ a) (hmax : a + n < 2 ^ 31)
    (hlen : sys.workers.length = n)
    (hinv : sys.globals.active_connections = a + in_flight sys.workers) :
    (sys.step i).workers.length = n ∧
    (sys.step i).globals.active_connections = a + in_flight (sys.step i).workers := by
  unfold System.step
  cases hw : sys.workers[i]? with
  | none => exact ⟨hlen, hinv⟩
  | some w =>
    obtain ⟨hi, hget⟩ := List.getElem?_eq_some_iff.mp hw
    have hbound : ∀ w2 : Worker, in_flight (sys.workers.set i w2) ≤ n := by
      intro w2
      have := List.countP_le_length Worker.in_flight (l := sys.workers.set i w2)
      simpa [in_flight, hlen] using this
    have hset : ∀ w2 : Worker, in_flight (sys.workers.set i w2)
        = (in_flight sys.workers - if Worker.in_flight w = true then 1 else 0)
          + if Worker.in_flight w2 = true then 1 else 0 := by
      intro w2
      unfold in_flight
      rw [List.countP_set Worker.in_flight sys.workers i w2 hi, hget]
    have hpos : Worker.in_flight w = true → 0 < in_flight sys.workers := by
      intro hf
      unfold in_flight
      rw [List.countP_pos_iff]
      exact ⟨w, hget ▸ List.getElem_mem hi, hf⟩
    simp only [List.length_set]
    refine ⟨hlen, ?_⟩
    cases hp : w.phase with
    | idle =>
      have hfw : Worker.in_flight w = false := by simp [Worker.in_flight, hp]
      have hnew : Worker.in_flight { w with phase := .started } = true := rfl
      have hb := hbound { w with phase := .started }
      have hs := hset { w with phase := .started }
      rw [hfw, hnew] at hs
      simp only [Bool.false_eq_true, if_false, if_true, Nat.sub_zero] at hs
      simp only [Worker.step, hp, hc_enter, hinv]
      rw [hs] at hb ⊢
      rw [wrap_int_of_range _ (by omega) (by omega)]
      push_cast
      omega
    | started =>
      have hfw : Worker.in_flight w = true := by simp [Worker.in_flight, hp]
      have hnew : Worker.in_flight { w with phase := .handled } = true := rfl
      have hs := hset { w with phase := .handled }
      have hp1 := hpos hfw
      rw [hfw, hnew] at hs
      simp only [if_true] at hs
      simp only [Worker.step, hp, (hc_serve_frame w.conn sys.globals).1, hinv]
      rw [hs]
      congr 2
      omega
    | handled =>
      have hfw : Worker.in_flight w = true := by simp [Worker.in_flight, hp]
      have hnew : Worker.in_flight { w with phase := .ended } = false := rfl
      have hs := hset { w with phase := .ended }
      have hp1 := hpos hfw
      have hn : in_flight sys.workers ≤ n := by
        have := List.countP_le_length Worker.in_flight (l := sys.workers)
        simpa [in_flight, hlen] using this
      rw [hfw, hnew] at hs
      simp only [if_true, Bool.false_eq_true, if_false, Nat.add_zero] at hs
      simp only [Worker.step, hp, hc_leave, hinv]
      rw [hs]
      rw [wrap_int_of_range _ (by omega) (by omega)]
      omega
    | ended =>
      have hfw : Worker.in_flight w = false := by simp [Worker.in_flight, hp]
      have hs := hset w
      rw [hfw] at hs
      simp only [Bool.false_eq_true, if_false, Nat.sub_zero, Nat.add_zero] at hs
      simp only [Worker.step, hp, hinv]
      rw [hs]

theorem run_invariant (a : Int) (n : Nat) (schedule : List Nat) (sys : System)
    (h0 : 0 ≤ a) (hmax : a + n < 2 ^ 31)
    (hlen : sys.workers.length = n)
    (hinv : sys.globals.active_connections = a + in_flight sys.workers) :
    (sys.run schedule).globals.active_connections = a + in_flight (sys.run schedule).workers := by
  induction schedule generalizing sys with
  | nil => exact hinv
  | cons i rest ih =>
    have hstep := step_invariant a n sys i h0 hmax hlen hinv
    exact ih (sys.step i) hstep.1 hstep.2

theorem in_flight_of_all_ended (ws : List Worker) (h : all_ended ws = true) : in_flight ws = 0 := by
  unfold in_flight
  rw [List.countP_eq_zero]
  intro w hw
  simp only [all_ended, List.all_eq_true, decide_eq_true_eq] at h
  simp [Worker.in_flight, h w hw]

/-- C4: for N workers interleaved in any order from a state with
active_connections = a ≥ 0, active_connections is always a plus the number
of workers started and not yet ended, hence never negative, and it is a
again once every worker has ended. -/
theorem active_connections_interleaved (conns : List Conn) (g : Globals) (schedule : List Nat)
    (h0 : 0 ≤ g.active_connections)
    (hmax : g.active_connections + conns.length < 2 ^ 31) :
    ((System.init g conns).run schedule).globals.active_connections
      = g.active_connections + in_flight ((System.init g conns).run schedule).workers ∧
    0 ≤ ((System.init g conns).run schedule).globals.active_connections ∧
    (all_ended ((System.init g conns).run schedule).workers = true →
      ((System.init g conns).run schedule).globals.active_connections = g.active_connections) := by
  have hinit : in_flight (System.init g conns).workers = 0 := by
    simp [in_flight, System.init, List.countP_eq_zero, Worker.in_flight]
  have hrun := run_invariant g.active_connections conns.length schedule (System.init g conns)
    h0 hmax (by simp [System.init]) (by rw [hinit]; simp [System.init])
  refine ⟨hrun, ?_, ?_⟩
  · rw [hrun]
    omega
  · intro hall
    rw [hrun, in_flight_of_all_ended _ hall]
    simp

theorem active_connections_interleaved_witness :
    0 ≤ globals_zero.active_connections ∧
    globals_zero.active_connections + demo_conns.length < 2 ^ 31 ∧
    all_ended ((System.init globals_zero demo_conns).run demo_schedule).workers = true ∧
    (((System.init globals_zero demo_conns).run demo_schedule).globals.active_connections
      = globals_zero.active_connections
        + in_flight ((System.init globals_zero demo_conns).run demo_schedule).workers ∧
    0 ≤ ((System.init globals_zero demo_conns).run demo_schedule).globals.active_connections ∧
    (all_ended ((System.init globals_zero demo_conns).run demo_schedule).workers = true →
      ((System.init globals_zero demo_conns).run demo_schedule).globals.active_connections
        = globals_zero.active_connections)) :=
  ⟨by decide, by decide, by decide,
    active_connections_interleaved demo_conns globals_zero demo_schedule (by decide) (by decide)⟩

/-! ## Static files and the directory listing -/

theorem normalize_ne_root (path : List Char) (h : path ≠ "/".toList) : normalize path = path := by
  unfold normalize
  rw [if_neg h]

/-- What the worker does once sscanf has left `GET` in method and a path that
normalises to /index.html. -/
theorem handle_client_index (c : Conn) (content : List Char) (g : Globals)
    (hm : (scan_request c).1 = "GET".toList)
    (hp : normalize (scan_request c).2 = "/index.html".toList)
    (hfile : c.fs.fopen (DOC_ROOT ++ "/index.html".toList) = some content) :
    handle_client c g =
      (hc_leave (stream_file content
          (increment_stat .http_2xx (update_byte_stats (to_ulong c.recv.ret) 0 (hc_enter g)))
          "HTTP/1.1 200 OK\r\nContent-Type: text/html\r\n\r\n".toList).1,
        "HTTP/1.1 200 OK\r\nContent-Type: text/html\r\n\r\n".toList ++ content) := by
  have hroute : route "GET".toList "/index.html".toList c.filename0
      = .ServeStatic "/index.html".toList := by
    simp only [route]
    rw [if_neg (by decide), if_neg (by decide), if_neg (by decide)]
    simp
  have hpath : snprintf BUFFER_SIZE (DOC_ROOT ++ "/index.html".toList)
      = DOC_ROOT ++ "/index.html".toList := by decide
  simp only [handle_client, hc_serve, dispatch, hm, hp, hroute, perform, serve_file, hpath, hfile]
  rw [stream_file_eq]

/-- C6: with index.html present, a worker whose request line is `GET /` and a
worker whose request line is `GET /index.html` write the same bytes (the 200
status line, the text/html header, the content of the file) and make the same
updates of the response-class counters and of total_bytes_transmitted; the
normalisation rewrites `/` to `/index.html` and leaves every other path as it is. -/
theorem root_is_index (c1 c2 : Conn) (content : List Char) (g : Globals)
    (hfs : c2.fs = c1.fs)
    (h1 : scan_request c1 = ("GET".toList, "/".toList))
    (h2 : scan_request c2 = ("GET".toList, "/index.html".toList))
    (hfile : c1.fs.fopen (DOC_ROOT ++ "/index.html".toList) = some content) :
    (handle_client c1 g).2
      = "HTTP/1.1 200 OK\r\nContent-Type: text/html\r\n\r\n".toList ++ content ∧
    (handle_client c2 g).2 = (handle_client c1 g).2 ∧
    (handle_client c1 g).1.http_2xx = (g.http_2xx + 1) % ULONG_MOD ∧
    (handle_client c2 g).1.http_2xx = (handle_client c1 g).1.http_2xx ∧
    (handle_client c2 g).1.http_4xx = (handle_client c1 g).1.http_4xx ∧
    (handle_client c2 g).1.http_5xx = (handle_client c1 g).1.http_5xx ∧
    (handle_client c2 g).1.total_bytes_transmitted
      = (handle_client c1 g).1.total_bytes_transmitted ∧
    normalize "/".toList = "/index.html".toList ∧
    (∀ path : List Char, path ≠ "/".toList → normalize path = path) := by
  have e1 := handle_client_index c1 content g (by rw [h1]) (by rw [h1]; rfl) hfile
  have e2 := handle_client_index c2 content g (by rw [h2]) (by rw [h2]; rfl) (by rw [hfs]; exact hfile)
  rw [e1, e2]
  simp only [stream_file_eq, hc_leave, increment_stat, update_byte_stats, hc_enter]
  refine ⟨trivial, trivial, ?_, ?_, ?_, ?_, ?_, rfl, normalize_ne_root⟩
  all_goals split <;> simp

theorem root_is_index_witness :
    conn_index.fs = conn_root.fs ∧
    scan_request conn_root = ("GET".toList, "/".toList) ∧
    scan_request conn_index = ("GET".toList, "/index.html".toList) ∧
    conn_root.fs.fopen (DOC_ROOT ++ "/index.html".toList) = some "<p>hi</p>".toList ∧
    ((handle_client conn_root globals_zero).2
      = "HTTP/1.1 200 OK\r\nContent-Type: text/html\r\n\r\n".toList ++ "<p>hi</p>".toList ∧
    (handle_client conn_index globals_zero).2 = (handle_client conn_root globals_zero).2 ∧
    (handle_client conn_root globals_zero).1.http_2xx
      = (globals_zero.http_2xx + 1) % ULONG_MOD ∧
    (handle_client conn_index globals_zero).1.http_2xx
      = (handle_client conn_root globals_zero).1.http_2xx ∧
    (handle_client conn_index globals_zero).1.http_4xx
      = (handle_client conn_root globals_zero).1.http_4xx ∧
    (handle_client conn_index globals_zero).1.http_5xx
      = (handle_client conn_root globals_zero).1.http_5xx ∧
    (handle_client conn_index globals_zero).1.total_bytes_transmitted
      = (handle_client conn_root globals_zero).1.total_bytes_transmitted ∧
    normalize "/".toList = "/index.html".toList ∧
    (∀ path : List Char, path ≠ "/".toList → normalize path = path)) :=
  ⟨rfl, by decide, by decide, by decide,
    root_is_index conn_root conn_index "<p>hi</p>".toList globals_zero
      rfl (by decide) (by decide) (by decide)⟩

/-- Body written by the readdir loop: the names of the regular files, one per line. -/
theorem list_loop_eq (entries : List Dirent) (sent : List Char)
    (hnames : ∀ e ∈ entries, e.d_name.length ≤ 255) :
    list_loop entries sent
      = sent ++ ((entries.filter (fun e => e.is_reg)).map
          (fun e => e.d_name ++ "\n".toList)).flatten := by
  induction entries generalizing sent with
  | nil => simp [list_loop]
  | cons e more ih =>
    have hmore : ∀ x ∈ more, x.d_name.length ≤ 255 :=
      fun x hx => hnames x (List.mem_cons_of_mem e hx)
    have he : e.d_name.length ≤ 255 := hnames e (List.mem_cons_self e more)
    have hsn : snprintf BUFFER_SIZE (e.d_name ++ "\n".toList) = e.d_name ++ "\n".toList := by
      unfold snprintf
      apply List.take_of_length_le
      simp [BUFFER_SIZE]
      omega
    unfold list_loop
    cases hreg : e.is_reg with
    | true =>
      rw [if_pos rfl, ih _ hmore, hsn, List.filter_cons, if_pos hreg]
      simp
    | false =>
      rw [if_neg (by simp), ih _ hmore, List.filter_cons, if_neg (by simp [hreg])]

/-- C8: when the directory opens, list_files writes the 200 text/plain header
and then, for the entries that are regular files and in enumeration order, the
name followed by a line feed, every other entry omitted; when it does not
open, the response is the 500 status line with an empty body and http_5xx
grows by one. -/
theorem list_files_listing (fs : FS) (g : Globals) :
    (∀ entries : List Dirent, fs.opendir DOC_ROOT = some entries →
      (∀ e ∈ entries, e.d_name.length ≤ 255) →
      (list_files fs g).2
        = "HTTP/1.1 200 OK\r\nContent-Type: text/plain\r\n\r\n".toList
          ++ ((entries.filter (fun e => e.is_reg)).map
              (fun e => e.d_name ++ "\n".toList)).flatten) ∧
    (fs.opendir DOC_ROOT = none → g.http_5xx + 1 < ULONG_MOD →
      (list_files fs g).2 = "HTTP/1.1 500 Internal Server Error\r\n\r\n".toList ∧
      (list_files fs g).1.http_5xx = g.http_5xx + 1) := by
  constructor
  · intro entries hdir hnames
    simp only [list_files, hdir]
    exact list_loop_eq entries _ hnames
  · intro hdir h5
    simp only [list_files, hdir, increment_stat]
    exact ⟨trivial, Nat.mod_eq_of_lt h5⟩

theorem list_files_listing_witness :
    (fs_demo.opendir DOC_ROOT = some demo_entries ∧
      (∀ e ∈ demo_entries, e.d_name.length ≤ 255) ∧
      (list_files fs_demo globals_zero).2
        = "HTTP/1.1 200 OK\r\nContent-Type: text/plain\r\n\r\n".toList
          ++ ((demo_entries.filter (fun e => e.is_reg)).map
              (fun e => e.d_name ++ "\n".toList)).flatten) ∧
    (fs_unreadable.opendir DOC_ROOT = none ∧ globals_zero.http_5xx + 1 < ULONG_MOD ∧
      (list_files fs_unreadable globals_zero).2
        = "HTTP/1.1 500 Internal Server Error\r\n\r\n".toList ∧
      (list_files fs_unreadable globals_zero).1.http_5xx = globals_zero.http_5xx + 1) ∧
    ((demo_entries.filter (fun e => e.is_reg)).map (fun e => e.d_name ++ "\n".toList)).flatten
      = "a.txt\nb.txt\n".toList :=
  ⟨⟨rfl, by decide, (list_files_listing fs_demo globals_zero).1 demo_entries rfl (by decide)⟩,
    ⟨rfl, by decide, (list_files_listing fs_unreadable globals_zero).2 rfl (by decide)⟩,
    by decide⟩

/-! ## Wire form of the responses -/

/-- The readdir loop only appends to what was sent before. -/
theorem list_loop_appends (entries : List Dirent) (sent : List Char) :
    ∃ body, list_loop entries sent = sent ++ body := by
  induction entries generalizing sent with
  | nil => exact ⟨[], by simp [list_loop]⟩
  | cons e more ih =>
    unfold list_loop
    split
    · obtain ⟨body, hb⟩ := ih (sent ++ snprintf BUFFER_SIZE (e.d_name ++ "\n".toList))
      exact ⟨snprintf BUFFER_SIZE (e.d_name ++ "\n".toList) ++ body, by rw [hb, List.append_assoc]⟩
    · exact ih sent

/-- The diagnostics text starts with its 200 text/plain header. -/
theorem serve_stats_appends (now : Int) (g : Globals) :
    ∃ body, (serve_stats now g).2
      = "HTTP/1.1 200 OK\r\nContent-Type: text/plain\r\n\r\n".toList ++ body := by
  simp only [serve_stats, snprintf, List.append_assoc]
  rw [List.take_append_eq_append_take]
  exact ⟨_, congrArg (fun l => l ++ _) (by decide)⟩

theorem wire_form_code_perform (c : Conn) (r : RouteDecision) (g : Globals) :
    wire_form_code (perform c r g).2 := by
  have h200 : ∀ ctype body : List Char, one_line ctype →
      wire_form_code ("HTTP/1.1 ".toList ++ "200 OK".toList ++ "\r\n".toList
        ++ "Content-Type: ".toList ++ ctype ++ "\r\n".toList ++ "\r\n".toList ++ body) :=
    fun ctype body hc => Or.inl ⟨_, by simp, ctype, body, hc, rfl⟩
  have h404 : wire_form_code not_found_response :=
    Or.inl ⟨"404 Not Found".toList, by simp, "text/html".toList,
      "<h1>404 Not Found</h1>".toList, by unfold one_line; decide, rfl⟩
  cases r with
  | Diagnostics =>
    obtain ⟨body, hb⟩ := serve_stats_appends c.now g
    simp only [perform, hb]
    exact h200 "text/plain".toList body (by unfold one_line; decide)
  | ListDirectory =>
    simp only [perform, list_files]
    split
    · exact Or.inr rfl
    · next entries _ =>
      obtain ⟨body, hb⟩ := list_loop_appends entries
        "HTTP/1.1 200 OK\r\nContent-Type: text/plain\r\n\r\n".toList
      simp only [hb]
      exact h200 "text/plain".toList body (by unfold one_line; decide)
  | DownloadNamed filename =>
    simp only [perform, send_file, stream_file_eq]
    split
    · exact h404
    · next content _ =>
      exact h200 "application/octet-stream".toList content (by unfold one_line; decide)
  | ServeStatic path =>
    simp only [perform, serve_file, stream_file_eq]
    split
    · exact h404
    · next content _ =>
      exact h200 "text/html".toList content (by unfold one_line; decide)
  | Rejected => exact h404

/-- C9, amended: on every route and for every filesystem answer the worker
writes a status line, then a Content-Type header line, a blank line and the
body when the status is `200 OK` or `404 Not Found`; the
`500 Internal Server Error` response is the status line and the blank line
alone, with no header line and no body. -/
theorem responses_wire_form (c : Conn) (g : Globals) :
    wire_form_code (handle_client c g).2 := by
  simp only [handle_client, hc_serve, dispatch]
  exact wire_form_code_perform c _ _

/-- C9 as stated fails: the response to `GET /sync` on an unreadable document
root has no Content-Type header line. -/
theorem server_error_has_no_content_type :
    ¬ wire_form (handle_client (conn_of fs_unreadable "GET /sync HTTP/1.1\r\n\r\n")
        globals_zero).2 := by
  have hout : (handle_client (conn_of fs_unreadable "GET /sync HTTP/1.1\r\n\r\n")
      globals_zero).2 = "HTTP/1.1 500 Internal Server Error\r\n\r\n".toList := by decide
  rw [hout]
  rintro ⟨status, hmem, ctype, body, -, heq⟩
  simp only [List.mem_cons, List.mem_singleton, List.not_mem_nil, or_false] at hmem
  rcases hmem with rfl | rfl | rfl <;> simp at heq

/-! ## Routing -/

/-- Lines 196-214 agree with the router of the specification on every path that
is a token other than `/sync/` itself. -/
theorem route_eq_route_spec (method path filename0 : List Char)
    (htok : is_token path = true) (hne : path ≠ "/sync/".toList) :
    route method path filename0 = route_spec method path := by
  have hpre : ("/sync/".toList.isPrefixOf path = true) ↔ path.take 6 = "/sync/".toList := by
    rw [List.isPrefixOf_iff_prefix, List.prefix_iff_eq_take]
    exact eq_comm
  unfold route route_spec
  by_cases h1 : path = "/stats".toList
  · rw [if_pos h1, if_pos h1]
  by_cases h2 : path = "/sync".toList
  · rw [if_neg h1, if_pos h2, if_neg h1, if_pos h2]
  rw [if_neg h1, if_neg h2, if_neg h1, if_neg h2]
  by_cases h3 : path.take 6 = "/sync/".toList
  · rw [if_pos h3, if_pos (hpre.mpr h3)]
    have hsplit : "/sync/".toList ++ path.drop 6 = path := by
      rw [← h3, List.take_append_drop]
    have hrest : is_token (path.drop 6) = true := by
      simp only [is_token, Bool.and_eq_true, Bool.not_eq_true', List.isEmpty_eq_false,
        List.all_eq_true] at htok ⊢
      refine ⟨?_, fun ch hch => htok.2 ch (List.mem_of_mem_drop hch)⟩
      intro hnil
      rw [hnil, List.append_nil] at hsplit
      exact hne hsplit.symm
    simp only [sscanf_sync, h3, if_true, scan_s_token _ hrest]
  · rw [if_neg h3, if_neg (fun h => h3 (hpre.mp h))]

/-- C1 at the request `GET /sync/`: sscanf leaves method `GET` and path
`/sync/`; the conversion of line 202 finds no character, so send_file is
called with whatever the array filename held (here `a.txt`, whose content is
then sent), where the router of the specification gives DownloadNamed of the
empty remainder. -/
theorem sync_slash_uses_stale_filename :
    scan_request conn_sync_slash = ("GET".toList, "/sync/".toList) ∧
    route "GET".toList "/sync/".toList conn_sync_slash.filename0
      = .DownloadNamed "a.txt".toList ∧
    route_spec "GET".toList "/sync/".toList = .DownloadNamed [] ∧
    (handle_client conn_sync_slash globals_zero).2
      = "HTTP/1.1 200 OK\r\nContent-Type: application/octet-stream\r\n\r\nalpha".toList := by
  refine ⟨by decide, by decide, by decide, ?_⟩
  have hr : route (scan_request conn_sync_slash).1 (normalize (scan_request conn_sync_slash).2)
      conn_sync_slash.filename0 = .DownloadNamed "a.txt".toList := by decide
  have hf : conn_sync_slash.fs.fopen
      (snprintf BUFFER_SIZE (DOC_ROOT ++ "/".toList ++ "a.txt".toList))
      = some "alpha".toList := by decide
  simp only [handle_client, hc_serve, dispatch, hr, perform, send_file, hf, stream_file_eq]
  decide

/-! ## Response-class counters -/

/-- Every branch other than serve_stats reports one outcome. -/
theorem perform_reports_one (c : Conn) (r : RouteDecision) (g : Globals)
    (hr : r ≠ .Diagnostics) (h2 : g.http_2xx + 1 < ULONG_MOD) (h4 : g.http_4xx + 1 < ULONG_MOD)
    (h5 : g.http_5xx + 1 < ULONG_MOD) :
    response_total (perform c r g).1 = response_total g + 1 := by
  have e2 := Nat.mod_eq_of_lt h2
  have e4 := Nat.mod_eq_of_lt h4
  have e5 := Nat.mod_eq_of_lt h5
  cases r with
  | Diagnostics => exact absurd rfl hr
  | ListDirectory =>
    simp only [perform, list_files]
    split <;> simp only [increment_stat, response_total, e2, e5] <;> omega
  | DownloadNamed filename =>
    simp only [perform, send_file, stream_file_eq]
    split
    · simp only [increment_stat, response_total, e4]; omega
    · split <;> simp only [increment_stat, response_total, e2] <;> omega
  | ServeStatic path =>
    simp only [perform, serve_file, stream_file_eq]
    split
    · simp only [increment_stat, response_total, e4]; omega
    · split <;> simp only [increment_stat, response_total, e2] <;> omega
  | Rejected =>
    simp only [perform, increment_stat, response_total, e4]; omega

/-- C2 at the request `GET /stats`: the worker answers 200 and none of
http_2xx, http_4xx, http_5xx changes, so no outcome is reported. -/
theorem stats_request_reports_no_outcome :
    (scan_request (conn_of fs_demo "GET /stats HTTP/1.1\r\n\r\n")).2 = "/stats".toList ∧
    (handle_client (conn_of fs_demo "GET /stats HTTP/1.1\r\n\r\n") globals_zero).2.take 15
      = "HTTP/1.1 200 OK".toList ∧
    response_total (handle_client (conn_of fs_demo "GET /stats HTTP/1.1\r\n\r\n") globals_zero).1
      = response_total globals_zero ∧
    response_total (handle_client (conn_of fs_demo "GET /stats HTTP/1.1\r\n\r\n") globals_zero).1
      ≠ response_total globals_zero + 1 := by
  decide

/-! ## Byte counters -/

/-- No branch of lines 196-214 changes total_bytes_received. -/
theorem perform_bytes_received (c : Conn) (r : RouteDecision) (g : Globals)
    (h : g.total_bytes_received < ULONG_MOD) :
    (perform c r g).1.total_bytes_received = g.total_bytes_received := by
  have e := Nat.mod_eq_of_lt h
  cases r with
  | Diagnostics => rfl
  | ListDirectory =>
    simp only [perform, list_files]
    split <;> rfl
  | DownloadNamed filename =>
    simp only [perform, send_file, stream_file_eq]
    split
    · rfl
    · split <;> simp only [increment_stat, e]
  | ServeStatic path =>
    simp only [perform, serve_file, stream_file_eq]
    split
    · rfl
    · split <;> simp only [increment_stat, e]
  | Rejected => rfl

/-- A successful recv adds the number of bytes stored to total_bytes_received. -/
theorem handle_client_bytes_received (c : Conn) (bytes : List Char) (g : Globals)
    (hrecv : c.recv = .got bytes)
    (hroom : g.total_bytes_received + bytes.length < ULONG_MOD) :
    (handle_client c g).1.total_bytes_received = g.total_bytes_received + bytes.length := by
  have hret : to_ulong c.recv.ret = bytes.length := by
    rw [hrecv]
    simp only [Recv.ret, to_ulong]
    have : bytes.length < ULONG_MOD := by omega
    unfold ULONG_MOD at this ⊢
    omega
  have hstep : (update_byte_stats (to_ulong c.recv.ret) 0 (hc_enter g)).total_bytes_received
      = g.total_bytes_received + bytes.length := by
    simp only [update_byte_stats, hc_enter, hret]
    exact Nat.mod_eq_of_lt hroom
  simp only [handle_client, hc_serve, dispatch, hc_leave]
  rw [perform_bytes_received _ _ _ (by rw [hstep]; exact hroom), hstep]

/-- C10 at a failed recv: the return value -1 becomes 2^64 - 1 as a size_t,
and adding it takes total_bytes_received from 5 down to 4. -/
theorem failed_recv_lowers_bytes_received :
    conn_recv_failed.recv.ret = -1 ∧
    to_ulong conn_recv_failed.recv.ret = 2 ^ 64 - 1 ∧
    ({ globals_zero with total_bytes_received := 5 } : Globals).total_bytes_received = 5 ∧
    (handle_client conn_recv_failed
      { globals_zero with total_bytes_received := 5 }).1.total_bytes_received = 4 := by
  decide

end WebServer
